import Mathlib

/-!
Verification of the cppflag command-line parsing library (src/cppflag.hpp).

The development is a shallow embedding of the library: the type-erased
`IValue` hierarchy becomes the closed sum `cli.Value`, `Flag`/`FlagSet`
become structures, and `FlagSet::Parse` becomes a terminating recursion
over the token list.  Machine integers are `Int` with the explicit
signed-64-bit range checks performed by `std::stoll`.  C++ exceptions that
cross an interface (`std::bad_cast` out of `Flag::As`) are modelled with
`Except`.  Doubles are modelled exactly: the datum of a `double` flag is
kept as the exact rational value of the accepted literal (`cli.DoubleVal`);
IEEE-754 rounding of that rational to the nearest double is abstracted
away, which is sound here because no verified property observes the
numeric datum of a float flag.
-/

deriving instance DecidableEq for Except

namespace cli

/-- src/cppflag.hpp:12-18, enum class ParseErrorKind. -/
inductive ParseErrorKind
  | None
  | HelpRequested
  | UnknownFlag
  | MissingValue
  | InvalidValue
deriving DecidableEq, Repr

/-- src/cppflag.hpp:20-26, struct ParseResult. -/
structure ParseResult where
  kind : ParseErrorKind := ParseErrorKind.None
  flag : String := ""
  message : String := ""
deriving DecidableEq, Repr

/-- `ParseResult::ok()`. -/
def ParseResult.ok (r : ParseResult) : Bool := r.kind = ParseErrorKind.None

/-- C-locale `isspace`, the whitespace set skipped by `strtoll`/`strtod`. -/
def isSpaceC (c : Char) : Bool :=
  c = ' ' ∨ c = '\t' ∨ c = '\n' ∨ c = '\x0b' ∨ c = '\x0c' ∨ c = '\r'

/-- Numeric value of a base-10 digit run. -/
def digitsVal (l : List Char) : Nat :=
  l.foldl (fun acc c => acc * 10 + (c.toNat - '0'.toNat)) 0

/-- The two exceptions `std::stoll` / `std::stod` can raise. -/
inductive NumErr
  | invalidArgument
  | outOfRange
deriving DecidableEq, Repr

def int64Min : Int := -(2 ^ 63)
def int64Max : Int := 2 ^ 63 - 1

/-- Model of `std::stoll(text)` (base 10), as called at src/cppflag.hpp:61.
    Per `strtoll`: skip C-locale whitespace, accept one optional sign, then
    the maximal run of decimal digits; no digit at all raises
    `invalid_argument`, a value outside the signed 64-bit range raises
    `out_of_range`, and any trailing characters after the digit run are
    ignored (`std::stoll` does not require the whole string to be consumed). -/
def stoll (s : String) : Except NumErr Int :=
  let cs := s.data.dropWhile (fun c => isSpaceC c)
  let sign : Int := if cs.headD (Char.ofNat 0) = '-' then -1 else 1
  let cs2 :=
    if cs.headD (Char.ofNat 0) = '-' ∨ cs.headD (Char.ofNat 0) = '+' then cs.tail else cs
  let ds := cs2.takeWhile (fun c => c.isDigit)
  if ds = [] then Except.error NumErr.invalidArgument
  else
    let v : Int := sign * (digitsVal ds : Int)
    if v < int64Min ∨ int64Max < v then Except.error NumErr.outOfRange
    else Except.ok v

/-- The datum of a C++ `double`, abstracted: finite doubles are carried as
    the exact rational value of the parsed literal (IEEE rounding to the
    nearest double is not modelled; no claim observes a float datum). -/
inductive DoubleVal
  | finite (q : Rat)
  | inf (neg : Bool)
  | nan
deriving DecidableEq, Repr

/-- `std::tolower` in the default C locale: ASCII A-Z only. -/
def toLowerC (c : Char) : Char :=
  if 'A' ≤ c ∧ c ≤ 'Z' then Char.ofNat (c.toNat + 32) else c

/-- Overflow of the finite double range: the exact rational rounds to
    infinity iff its magnitude reaches the midpoint above DBL_MAX. -/
def overflowsDouble (q : Rat) : Bool :=
  (2 ^ 54 - 1) * (2 : Rat) ^ (970 : Nat) ≤ |q|

/-- Model of `std::stod(text)`, as called at src/cppflag.hpp:72.
    Per `strtod`: skip whitespace, one optional sign, then either an
    `inf`/`infinity` or `nan` keyword (case-insensitive) or a decimal
    significand (digits with an optional point, at least one digit) with an
    optional well-formed exponent part; trailing characters are ignored.
    No digit (and no keyword) raises `invalid_argument`; a finite literal
    whose value overflows the double range raises `out_of_range`.
    Abstractions: C99 hexadecimal significands are not modelled (they only
    change the stored datum, never acceptance, for inputs with a leading
    decimal digit they share); underflow-to-zero `out_of_range` at the
    bottom of the double range is not modelled.  No claim exercises either. -/
def stod (s : String) : Except NumErr DoubleVal :=
  let cs := s.data.dropWhile (fun c => isSpaceC c)
  let neg : Bool := cs.headD (Char.ofNat 0) = '-'
  let cs2 :=
    if cs.headD (Char.ofNat 0) = '-' ∨ cs.headD (Char.ofNat 0) = '+' then cs.tail else cs
  let low := cs2.map toLowerC
  if low.take 3 = ['i', 'n', 'f'] then Except.ok (DoubleVal.inf neg)
  else if low.take 3 = ['n', 'a', 'n'] then Except.ok DoubleVal.nan
  else
    let ip := cs2.takeWhile (fun c => c.isDigit)
    let rest1 := cs2.dropWhile (fun c => c.isDigit)
    let fp :=
      if rest1.headD (Char.ofNat 0) = '.' then rest1.tail.takeWhile (fun c => c.isDigit)
      else []
    let rest2 :=
      if rest1.headD (Char.ofNat 0) = '.' then rest1.tail.dropWhile (fun c => c.isDigit)
      else rest1
    if ip = [] ∧ fp = [] then Except.error NumErr.invalidArgument
    else
      let e : Int :=
        if rest2.headD (Char.ofNat 0) = 'e' ∨ rest2.headD (Char.ofNat 0) = 'E' then
          let r := rest2.tail
          let es : Int := if r.headD (Char.ofNat 0) = '-' then -1 else 1
          let r2 :=
            if r.headD (Char.ofNat 0) = '-' ∨ r.headD (Char.ofNat 0) = '+' then r.tail else r
          let eds := r2.takeWhile (fun c => c.isDigit)
          if eds = [] then 0 else es * (digitsVal eds : Int)
        else 0
      let mant : Rat := (digitsVal ip : Rat) + (digitsVal fp : Rat) / (10 : Rat) ^ fp.length
      let q : Rat := (if neg then -1 else 1) * mant * (10 : Rat) ^ e
      if overflowsDouble q then Except.error NumErr.outOfRange
      else Except.ok (DoubleVal.finite q)

/-- The four instantiated kinds of `ValueAdapter<T>` (src/cppflag.hpp:43-124)
    as a closed sum: int64_t, double, bool, std::string. -/
inductive Value
  | int (v : Int)
  | float (v : DoubleVal)
  | bool (b : Bool)
  | str (s : String)
deriving DecidableEq, Repr

/-- `dynamic_cast<ValueAdapter<bool>*>` succeeding, as at
    src/cppflag.hpp:292 and :336. -/
def Value.isBool : Value → Bool
  | Value.bool _ => true
  | _ => false

/-- Model of `ValueAdapter<T>::Set` (src/cppflag.hpp:58-105).
    `.error e` models `return false` with `err = e`; on failure the stored
    datum is unchanged (the caller keeps its old `Value`). -/
def Value.Set : Value → String → Except String Value
  | Value.int _, text =>
    match stoll text with
    | Except.ok n => Except.ok (Value.int n)
    | Except.error NumErr.invalidArgument => Except.error "not an integer"
    | Except.error NumErr.outOfRange => Except.error "out of range for int64_t"
  | Value.float _, text =>
    match stod text with
    | Except.ok d => Except.ok (Value.float d)
    | Except.error NumErr.invalidArgument => Except.error "not a float"
    | Except.error NumErr.outOfRange => Except.error "out of range for float"
  | Value.bool _, text =>
    let lower := String.mk (text.data.map toLowerC)
    if lower = "true" ∨ lower = "1" ∨ lower = "yes" ∨ lower = "on" then
      Except.ok (Value.bool true)
    else if lower = "false" ∨ lower = "0" ∨ lower = "no" ∨ lower = "off" then
      Except.ok (Value.bool false)
    else Except.error "invalid boolean value, accepts true/false, 1/0, yes/no, on/off"
  | Value.str _, text => Except.ok (Value.str text)

/-- src/cppflag.hpp:126-143, struct Flag.  `short_name = '\x00'` means
    "no alias", as in the source. -/
structure Flag where
  name : String
  short_name : Char
  usage : String
  value : Value
  default_value : Value
  set : Bool
deriving DecidableEq, Repr

/-- src/cppflag.hpp:145-194, class FlagSet.  The two `unordered_map`
    indexes are not stored: since `operator[]` insertion overwrites, a
    lookup resolves to the most recently registered matching flag, which is
    recovered below by searching the ordered sequence from the back. -/
structure FlagSet where
  name : String
  desc : String
  flags : List Flag
  positional : List String
deriving DecidableEq, Repr

/-- First element of a list satisfying `p`, searching from the back:
    the flag an `unordered_map` index entry points at after repeated
    overwriting insertions. -/
def findLast {α : Type} (p : α → Bool) (l : List α) : Option α :=
  l.reverse.find? p

/-- Replace the first element satisfying `p`. -/
def updateFirst {α : Type} (p : α → Bool) (g : α → α) : List α → List α
  | [] => []
  | x :: xs => if p x then g x :: xs else x :: updateFirst p g xs

/-- Replace the last element satisfying `p`: mutation through the index
    pointer, which aims at the most recently registered matching flag. -/
def updateLast {α : Type} (p : α → Bool) (g : α → α) (l : List α) : List α :=
  (updateFirst p g l.reverse).reverse

/-- `FlagSet::Lookup` / `index_.find` (src/cppflag.hpp:361-367). -/
def FlagSet.Lookup (fs : FlagSet) (n : String) : Option Flag :=
  findLast (fun f => decide (f.name = n)) fs.flags

/-- `short_index_.find` (src/cppflag.hpp:322): only flags registered with a
    nonzero alias character are in the short index. -/
def FlagSet.lookupShort (fs : FlagSet) (c : Char) : Option Flag :=
  findLast (fun f => decide (f.short_name = c ∧ c ≠ Char.ofNat 0)) fs.flags

/-- `FlagSet::IsSet` (src/cppflag.hpp:369-372). -/
def FlagSet.IsSet (fs : FlagSet) (n : String) : Bool :=
  match fs.Lookup n with
  | some f => f.set
  | none => false

/-- Model of `FlagSet::AddFlag<T>` (src/cppflag.hpp:202-220): the new flag
    carries an independent clone of the default as its current value.  The
    C++ method returns a `Flag*` handle; here the updated set carries the
    appended flag. -/
def FlagSet.AddFlag (fs : FlagSet) (n : String) (short_name : Char) (defaultVal : Value)
    (usage : String) : FlagSet :=
  { fs with
    flags := fs.flags ++ [{ name := n, short_name := short_name, usage := usage,
                            value := defaultVal, default_value := defaultVal, set := false }] }

/-- Signature aliases: the registration method names `FlagSet.Int`,
    `FlagSet.Float`, `FlagSet.Bool`, `FlagSet.String` shadow the builtin
    type names inside later `FlagSet` declarations, so those signatures
    spell the builtin types through these aliases. -/
abbrev StrT := String

abbrev IntT := Int

abbrev BoolT := Bool

/-- `FlagSet::Int` (src/cppflag.hpp:222-225). -/
def FlagSet.Int (fs : FlagSet) (n : StrT) (defaultVal : IntT) (usage : StrT)
    (short_name : Char) : FlagSet :=
  fs.AddFlag n short_name (Value.int defaultVal) usage

/-- `FlagSet::Float` (src/cppflag.hpp:227-230). -/
def FlagSet.Float (fs : FlagSet) (n : StrT) (defaultVal : DoubleVal) (usage : StrT)
    (short_name : Char) : FlagSet :=
  fs.AddFlag n short_name (Value.float defaultVal) usage

/-- `FlagSet::Bool` (src/cppflag.hpp:232-235). -/
def FlagSet.Bool (fs : FlagSet) (n : StrT) (defaultVal : BoolT) (usage : StrT)
    (short_name : Char) : FlagSet :=
  fs.AddFlag n short_name (Value.bool defaultVal) usage

/-- `FlagSet::String` (src/cppflag.hpp:237-240). -/
def FlagSet.String (fs : FlagSet) (n : StrT) (defaultVal : StrT) (usage : StrT)
    (short_name : Char) : FlagSet :=
  fs.AddFlag n short_name (Value.str defaultVal) usage

/-- `FlagSet::FlagSet` (src/cppflag.hpp:196-200): auto-registers the help
    flag. -/
def mkFlagSet (n desc : String) : FlagSet :=
  FlagSet.Bool { name := n, desc := desc, flags := [], positional := [] }
    "help" false "show this help message" 'h'

/-- `argv[i][0]` read through a C string: the empty string yields the NUL
    terminator (and `std::string::operator[]` at `size()` likewise). -/
def strHead (s : String) : Char := s.data.headD (Char.ofNat 0)

/-- Outcome of processing one token of the loop body
    (src/cppflag.hpp:254-356): either return from `Parse` immediately, or
    continue with an updated state; `consumeNext` models the `++i` that
    skips a token consumed as a value. -/
inductive StepRes
  | halt (r : ParseResult)
  | next (fs : FlagSet) (noMore : Bool) (consumeNext : Bool)
deriving Repr

/-- Tail of the long-option branch (src/cppflag.hpp:304-317): second index
    lookup, `Set`, raise the set flag. -/
def assignLong (fs : FlagSet) (noMore : Bool) (flag_name value : String)
    (consume : Bool) : StepRes :=
  match fs.Lookup flag_name with
  | none =>
    StepRes.halt { kind := ParseErrorKind.UnknownFlag, flag := flag_name,
                   message := "unknown flag: " ++ flag_name }
  | some flag =>
    match flag.value.Set value with
    | Except.error e =>
      StepRes.halt { kind := ParseErrorKind.InvalidValue, flag := flag_name,
                     message := "invalid value for flag '" ++ flag_name ++ "': " ++ e }
    | Except.ok v =>
      StepRes.next
        { fs with flags := (updateLast (fun g => decide (g.name = flag_name))
            (fun g => { g with value := v, set := true }) fs.flags) }
        noMore consume

/-- The `--flag value` format of the long-option branch
    (src/cppflag.hpp:287-301), with `flag_name` already extracted: a
    registered boolean takes implicit "true"; otherwise a next token is
    consumed only when it exists and does not start with `-`; an
    unregistered name falls through with an empty value to the second
    lookup (which then reports `UnknownFlag`). -/
def longNoEq (fs : FlagSet) (noMore : Bool) (flag_name : String)
    (rest : List String) : StepRes :=
  match fs.Lookup flag_name with
  | some f =>
    if f.value.isBool then assignLong fs noMore flag_name "true" false
    else
      match rest with
      | next :: _ =>
        if strHead next ≠ '-' then assignLong fs noMore flag_name next true
        else
          StepRes.halt { kind := ParseErrorKind.MissingValue, flag := flag_name,
                         message := "flag '" ++ flag_name ++ "' needs a value" }
      | [] =>
        StepRes.halt { kind := ParseErrorKind.MissingValue, flag := flag_name,
                       message := "flag '" ++ flag_name ++ "' needs a value" }
  | none => assignLong fs noMore flag_name "" false

/-- Long-option branch, src/cppflag.hpp:278-318: split on the first `=`
    (which, `arg` starting with `--`, can only occur at index ≥ 2). -/
def longStep (fs : FlagSet) (noMore : Bool) (arg : String) (rest : List String) : StepRes :=
  if '=' ∈ arg.data then
    assignLong fs noMore (String.mk ((arg.data.drop 2).takeWhile (fun c => c ≠ '=')))
      (String.mk ((arg.data.dropWhile (fun c => c ≠ '=')).drop 1)) false
  else longNoEq fs noMore (String.mk (arg.data.drop 2)) rest

/-- Tail of the short-option branch (src/cppflag.hpp:348-354): `Set` through
    the alias-index pointer, raise the set flag. -/
def shortAssign (fs : FlagSet) (noMore : Bool) (flag : Flag) (flag_char : Char)
    (value : String) (consume : Bool) : StepRes :=
  match flag.value.Set value with
  | Except.error e =>
    StepRes.halt { kind := ParseErrorKind.InvalidValue, flag := flag.name,
                   message := "invalid value for flag '-" ++ String.mk [flag_char]
                     ++ "': " ++ e }
  | Except.ok v =>
    StepRes.next
      { fs with flags := (updateLast
          (fun g => decide (g.short_name = flag_char ∧ flag_char ≠ Char.ofNat 0))
          (fun g => { g with value := v, set := true }) fs.flags) }
      noMore consume

/-- Short-option branch (src/cppflag.hpp:320-355), with `flag_char`
    (`arg[1]`) already extracted. -/
def shortWith (fs : FlagSet) (noMore : Bool) (flag_char : Char) (arg : String)
    (rest : List String) : StepRes :=
  match fs.lookupShort flag_char with
  | none =>
    StepRes.halt { kind := ParseErrorKind.UnknownFlag, flag := String.mk [flag_char],
                   message := "unknown flag: -" ++ String.mk [flag_char] }
  | some flag =>
    if 2 < arg.length then
      shortAssign fs noMore flag flag_char (String.mk (arg.data.drop 2)) false
    else if flag.value.isBool then
      shortAssign fs noMore flag flag_char "true" false
    else
      match rest with
      | next :: _ => shortAssign fs noMore flag flag_char next true
      | [] =>
        StepRes.halt { kind := ParseErrorKind.MissingValue, flag := flag.name,
                       message := "flag '-" ++ String.mk [flag_char] ++ "' needs a value" }

/-- Short-option branch, src/cppflag.hpp:320-355. -/
def shortStep (fs : FlagSet) (noMore : Bool) (arg : String) (rest : List String) : StepRes :=
  shortWith fs noMore ((arg.data.get? 1).getD (Char.ofNat 0)) arg rest

/-- One iteration of the token loop of `FlagSet::Parse`
    (src/cppflag.hpp:254-356), with `rest` as the lookahead (`argv[i+1..]`). -/
def parseStep (fs : FlagSet) (noMore : Bool) (arg : String) (rest : List String) : StepRes :=
  if arg = "--help" ∨ arg = "-h" ∨ arg = "-help" then
    StepRes.halt { kind := ParseErrorKind.HelpRequested, flag := "", message := "" }
  else if noMore then
    StepRes.next { fs with positional := fs.positional ++ [arg] } noMore false
  else if arg = "--" then
    StepRes.next fs true false
  else if strHead arg ≠ '-' then
    StepRes.next { fs with positional := fs.positional ++ [arg] } noMore false
  else if 2 < arg.length ∧ arg.data.get? 1 = some '-' then
    longStep fs noMore arg rest
  else if 1 < arg.length ∧ strHead arg = '-' ∧ arg.data.get? 1 ≠ some '-' then
    shortStep fs noMore arg rest
  else
    StepRes.next fs noMore false

/-- The token loop of `FlagSet::Parse`, src/cppflag.hpp:254-358.  A
    consumed value token (`consumeNext`) skips one element of the
    lookahead.  `parseStep` only reports `consumeNext = true` when a next
    token exists, so the `true, []` row is unreachable; it inlines the
    loop's empty-input result to keep the recursion structural. -/
def parseLoop (fs : FlagSet) (noMore : Bool) (args : List String) :
    ParseResult × FlagSet :=
  match args with
  | [] => ({ kind := ParseErrorKind.None, flag := "", message := "" }, fs)
  | arg :: rest =>
    match parseStep fs noMore arg rest with
    | StepRes.halt r => (r, fs)
    | StepRes.next fs' noMore' false => parseLoop fs' noMore' rest
    | StepRes.next fs' noMore' true =>
      match rest with
      | [] => ({ kind := ParseErrorKind.None, flag := "", message := "" }, fs')
      | _ :: rest' => parseLoop fs' noMore' rest'

/-- `resetFlag` is the pre-pass of src/cppflag.hpp:249-252 on one flag:
    current value becomes a clone of the default, set flag cleared. -/
def resetFlag (f : Flag) : Flag :=
  { f with value := f.default_value, set := false }

/-- Model of `FlagSet::Parse` (src/cppflag.hpp:245-359).  `args` holds the
    argv entries after `argv[0]` (the C++ loop starts at `i = 1`). -/
def FlagSet.Parse (fs : FlagSet) (args : List StrT) : ParseResult × FlagSet :=
  parseLoop
    { fs with positional := [], flags := fs.flags.map resetFlag }
    false args

/-- The template parameter `T` of `cli::Get<T>` / `Flag::As<T>`, ranging
    over the four instantiated kinds. -/
inductive TypeTag
  | int
  | float
  | bool
  | str
deriving DecidableEq, Repr

/-- The dynamic kind of a stored value: what `dynamic_cast` dispatches on. -/
def Value.tag : Value → TypeTag
  | Value.int _ => TypeTag.int
  | Value.float _ => TypeTag.float
  | Value.bool _ => TypeTag.bool
  | Value.str _ => TypeTag.str

/-- `T{}`, the value-initialized zero of each instantiated kind. -/
def zeroValue : TypeTag → Value
  | TypeTag.int => Value.int 0
  | TypeTag.float => Value.float (DoubleVal.finite 0)
  | TypeTag.bool => Value.bool false
  | TypeTag.str => Value.str ""

/-- Model of `Flag::As<T>` (src/cppflag.hpp:136-142): the `dynamic_cast`
    succeeds iff the dynamic kind equals `T`; `.error ()` models the thrown
    `std::bad_cast`. -/
def Flag.As (f : Flag) (t : TypeTag) : Except Unit Value :=
  if f.value.tag = t then Except.ok f.value else Except.error ()

/-- Model of `cli::Get<T>` (src/cppflag.hpp:405-411). -/
def Get (t : TypeTag) (fs : FlagSet) (n : String) : Except Unit Value :=
  match fs.Lookup n with
  | some f => f.As t
  | none => Except.ok (zeroValue t)

/-- The demonstration flag set of the repository's aliased example program:
    int `port`/`p`, bool `debug`/`d`, double `ratio`/`r`, string `mode`/`m`
    (plus the auto-registered `help`/`h`). -/
def fsDemo : FlagSet :=
  ((((mkFlagSet "full_demo" "A full demo for FlagSet").Int
      "port" 8080 "port to listen on" 'p').Bool
      "debug" false "enable debug logging" 'd').Float
      "ratio" (DoubleVal.finite 1) "ratio for calculation" 'r').String
      "mode" "fast" "running mode" 'm'

/-- Spec-side predicate (from the wording of the integer-conversion claim):
    a "well-formed base-10 signed 64-bit integer" text, i.e. an optional
    sign followed by one or more decimal digits and nothing else, whose
    value lies in the signed 64-bit range. -/
def WellFormedInt64 (s : String) : Bool :=
  let sign : Int := if s.data.headD (Char.ofNat 0) = '-' then -1 else 1
  let cs2 :=
    if s.data.headD (Char.ofNat 0) = '-' ∨ s.data.headD (Char.ofNat 0) = '+' then s.data.tail
    else s.data
  decide (cs2 ≠ [] ∧ (∀ c ∈ cs2, c.isDigit = true) ∧
    int64Min ≤ sign * (digitsVal cs2 : Int) ∧ sign * (digitsVal cs2 : Int) ≤ int64Max)

/-- Spec-side, declarative reading of what the integer conversion accepts:
    after a run of C whitespace and one optional sign, the text starts with
    a maximal non-empty digit run whose signed value `n` fits the signed
    64-bit range; characters after the digit run are unconstrained. -/
def IntTokenSpec (s : String) (n : Int) : Prop :=
  ∃ w sgn ds r : List Char,
    s.data = w ++ sgn ++ ds ++ r ∧
    (∀ c ∈ w, isSpaceC c = true) ∧
    (sgn = [] ∨ sgn = ['+'] ∨ sgn = ['-']) ∧
    ds ≠ [] ∧ (∀ c ∈ ds, c.isDigit = true) ∧
    (∀ c ∈ r.take 1, c.isDigit = false) ∧
    n = (if sgn = ['-'] then -1 else 1) * (digitsVal ds : Int) ∧
    int64Min ≤ n ∧ n ≤ int64Max

lemma digit_not_space {c : Char} (h : c.isDigit = true) : isSpaceC c = false := by
  unfold isSpaceC
  apply decide_eq_false
  rintro (rfl | rfl | rfl | rfl | rfl | rfl) <;> exact absurd h (by decide)

lemma digit_ne_dash {c : Char} (h : c.isDigit = true) : c ≠ '-' := by
  intro he
  subst he
  exact absurd h (by decide)

lemma digit_ne_plus {c : Char} (h : c.isDigit = true) : c ≠ '+' := by
  intro he
  subst he
  exact absurd h (by decide)

lemma takeWhile_all_append {p : Char → Bool} {l r : List Char}
    (hl : ∀ c ∈ l, p c = true) (hr : ∀ c ∈ r.take 1, p c = false) :
    (l ++ r).takeWhile p = l := by
  rw [List.takeWhile_append, List.takeWhile_eq_self_iff.mpr hl, if_pos rfl]
  cases r with
  | nil => simp
  | cons a t =>
    rw [List.takeWhile_cons, if_neg]
    · simp
    · rw [hr a (by simp)]
      simp

lemma dropWhile_space_all {w l : List Char}
    (hw : ∀ c ∈ w, isSpaceC c = true)
    (hl : ∀ c ∈ l.take 1, isSpaceC c = false) :
    (w ++ l).dropWhile (fun c => isSpaceC c) = l := by
  rw [List.dropWhile_append]
  rw [List.dropWhile_eq_nil_iff.mpr (fun x hx => hw x hx)]
  simp only [List.isEmpty_nil, if_true]
  cases l with
  | nil => rfl
  | cons a t =>
    rw [List.dropWhile_cons, if_neg]
    rw [hl a (by simp)]
    simp

lemma take_one_dropWhile_not (p : Char → Bool) (l : List Char) :
    ∀ c ∈ (l.dropWhile p).take 1, p c = false := by
  intro c hc
  have h := List.head?_dropWhile_not p l
  cases hd : l.dropWhile p with
  | nil =>
    rw [hd] at hc
    simp at hc
  | cons a t =>
    rw [hd] at hc h
    simp only [List.head?_cons] at h
    simp only [List.take, List.mem_singleton] at hc
    subst hc
    exact h

lemma data_long (name : String) : ("--" ++ name).data = '-' :: '-' :: name.data := by
  rw [String.data_append]
  rfl

lemma data_longEq (name v : String) :
    ("--" ++ name ++ "=" ++ v).data = '-' :: '-' :: (name.data ++ '=' :: v.data) := by
  rw [String.data_append, String.data_append, String.data_append]
  simp

lemma data_ne_nil {name : String} (h : name ≠ "") : name.data ≠ [] := by
  intro hd
  apply h
  apply String.ext
  rw [hd]

lemma long_not_help {name : String} (hh : name ≠ "help") :
    ¬("--" ++ name = "--help" ∨ "--" ++ name = "-h" ∨ "--" ++ name = "-help") := by
  rintro (he | he | he)
  · rw [String.ext_iff, data_long] at he
    apply hh
    apply String.ext
    simpa using he
  · rw [String.ext_iff, data_long] at he
    simp at he
  · rw [String.ext_iff, data_long] at he
    simp at he

lemma long_not_term {name : String} (h0 : name ≠ "") : ¬("--" ++ name = "--") := by
  intro he
  rw [String.ext_iff, data_long] at he
  apply h0
  apply String.ext
  simpa using he

lemma parseStep_long (fs : FlagSet) (name : String) (rest : List String)
    (hh : name ≠ "help") (h0 : name ≠ "") :
    parseStep fs false ("--" ++ name) rest = longStep fs false ("--" ++ name) rest := by
  have hd : ("--" ++ name).data = '-' :: '-' :: name.data := data_long name
  have hC : ¬(strHead ("--" ++ name) ≠ '-') := by
    rw [strHead, hd]
    simp
  have hlen : 2 < ("--" ++ name).length := by
    rw [show ("--" ++ name).length = ("--" ++ name).data.length from rfl, hd]
    have := data_ne_nil h0
    cases hnd : name.data with
    | nil => exact absurd hnd this
    | cons a l => simp
  have hget : ("--" ++ name).data.get? 1 = some '-' := by
    rw [hd]
    rfl
  unfold parseStep
  rw [if_neg (long_not_help hh), if_neg (by simp), if_neg (long_not_term h0), if_neg hC,
    if_pos ⟨hlen, hget⟩]

lemma short_not_special {c : Char} (hch : c ≠ 'h') :
    ¬(String.mk ['-', c] = "--help" ∨ String.mk ['-', c] = "-h" ∨
      String.mk ['-', c] = "-help") := by
  rintro (he | he | he) <;> rw [String.ext_iff] at he
  · simp at he
  · simp at he
    exact hch he
  · simp at he

lemma parseStep_short (fs : FlagSet) (c : Char) (rest : List String)
    (hch : c ≠ 'h') (hcd : c ≠ '-') :
    parseStep fs false (String.mk ['-', c]) rest =
      shortWith fs false c (String.mk ['-', c]) rest := by
  unfold parseStep
  rw [if_neg (short_not_special hch), if_neg (by simp)]
  rw [if_neg (by intro he; rw [String.ext_iff] at he; simp at he; exact hcd he)]
  rw [if_neg (by simp [strHead])]
  rw [if_neg (by rintro ⟨h2, _⟩; simp [String.length] at h2)]
  rw [if_pos ⟨by simp [String.length], rfl, by
    show some c ≠ some '-'
    intro he
    exact hcd (Option.some.inj he)⟩]
  unfold shortStep
  rfl

lemma set_true_of_isBool {w : Value} (h : w.isBool = true) :
    w.Set "true" = Except.ok (Value.bool true) := by
  cases w with
  | bool b => rfl
  | int v => exact Bool.noConfusion h
  | float v => exact Bool.noConfusion h
  | str v => exact Bool.noConfusion h

lemma stoll_ok_iff (s : String) (n : Int) :
    stoll s = Except.ok n ↔ IntTokenSpec s n := by
  constructor
  · intro h
    simp only [stoll] at h
    have hsplit0 : s.data = s.data.takeWhile (fun c => isSpaceC c)
        ++ s.data.dropWhile (fun c => isSpaceC c) :=
      (List.takeWhile_append_dropWhile _ _).symm
    have hw : ∀ c ∈ s.data.takeWhile (fun c => isSpaceC c), isSpaceC c = true :=
      fun c hc => List.mem_takeWhile_imp hc
    cases hcs : s.data.dropWhile (fun c => isSpaceC c) with
    | nil =>
      rw [hcs] at h
      simp at h
    | cons c0 cs' =>
      rw [hcs] at h hsplit0
      simp only [List.headD_cons, List.tail_cons] at h
      by_cases hA : c0 = '-'
      · rw [hA] at hsplit0
        rw [if_pos hA, if_pos (Or.inl hA)] at h
        by_cases hds : cs'.takeWhile (fun c => c.isDigit) = []
        · rw [if_pos hds] at h
          simp at h
        · rw [if_neg hds] at h
          by_cases hrange : -1 * (digitsVal (cs'.takeWhile (fun c => c.isDigit)) : Int)
              < int64Min ∨
              int64Max < -1 * (digitsVal (cs'.takeWhile (fun c => c.isDigit)) : Int)
          · rw [if_pos hrange] at h
            simp at h
          · rw [if_neg hrange] at h
            simp only [Except.ok.injEq] at h
            push_neg at hrange
            refine ⟨s.data.takeWhile (fun c => isSpaceC c), ['-'],
              cs'.takeWhile (fun c => c.isDigit), cs'.dropWhile (fun c => c.isDigit),
              ?_, hw, Or.inr (Or.inr rfl), hds,
              fun c hc => List.mem_takeWhile_imp hc,
              take_one_dropWhile_not _ _, ?_, ?_, ?_⟩
            · conv_lhs => rw [hsplit0]
              simp [List.takeWhile_append_dropWhile]
            · rw [if_pos rfl]
              omega
            · omega
            · omega
      · by_cases hB : c0 = '+'
        · rw [hB] at hsplit0
          rw [if_neg hA, if_pos (Or.inr hB)] at h
          by_cases hds : cs'.takeWhile (fun c => c.isDigit) = []
          · rw [if_pos hds] at h
            simp at h
          · rw [if_neg hds] at h
            by_cases hrange : 1 * (digitsVal (cs'.takeWhile (fun c => c.isDigit)) : Int)
                < int64Min ∨
                int64Max < 1 * (digitsVal (cs'.takeWhile (fun c => c.isDigit)) : Int)
            · rw [if_pos hrange] at h
              simp at h
            · rw [if_neg hrange] at h
              simp only [Except.ok.injEq] at h
              push_neg at hrange
              refine ⟨s.data.takeWhile (fun c => isSpaceC c), ['+'],
                cs'.takeWhile (fun c => c.isDigit), cs'.dropWhile (fun c => c.isDigit),
                ?_, hw, Or.inr (Or.inl rfl), hds,
                fun c hc => List.mem_takeWhile_imp hc,
                take_one_dropWhile_not _ _, ?_, ?_, ?_⟩
              · conv_lhs => rw [hsplit0]
                simp [List.takeWhile_append_dropWhile]
              · rw [if_neg (by simp)]
                omega
              · omega
              · omega
        · have hC : ¬(c0 = '-' ∨ c0 = '+') := by
            rintro (hc | hc)
            exacts [hA hc, hB hc]
          rw [if_neg hA, if_neg hC] at h
          by_cases hds : (c0 :: cs').takeWhile (fun c => c.isDigit) = []
          · rw [if_pos hds] at h
            simp at h
          · rw [if_neg hds] at h
            by_cases hrange : 1 * (digitsVal ((c0 :: cs').takeWhile (fun c => c.isDigit)) : Int)
                < int64Min ∨
                int64Max < 1 * (digitsVal ((c0 :: cs').takeWhile (fun c => c.isDigit)) : Int)
            · rw [if_pos hrange] at h
              simp at h
            · rw [if_neg hrange] at h
              simp only [Except.ok.injEq] at h
              push_neg at hrange
              refine ⟨s.data.takeWhile (fun c => isSpaceC c), [],
                (c0 :: cs').takeWhile (fun c => c.isDigit),
                (c0 :: cs').dropWhile (fun c => c.isDigit),
                ?_, hw, Or.inl rfl, hds,
                fun c hc => List.mem_takeWhile_imp hc,
                take_one_dropWhile_not _ _, ?_, ?_, ?_⟩
              · conv_lhs => rw [hsplit0]
                simp [List.takeWhile_append_dropWhile]
              · rw [if_neg (by simp)]
                omega
              · omega
              · omega
  · rintro ⟨w, sgn, ds, r, hsd, hw, hsgn, hds0, hdsd, hr, hn, hmin, hmax⟩
    simp only [stoll]
    obtain ⟨d0, ds', rfl⟩ : ∃ d0 ds', ds = d0 :: ds' := by
      cases ds with
      | nil => exact absurd rfl hds0
      | cons a t => exact ⟨a, t, rfl⟩
    have hd0 : Char.isDigit d0 = true := hdsd d0 (by simp)
    have hdrop : s.data.dropWhile (fun c => isSpaceC c) = sgn ++ ((d0 :: ds') ++ r) := by
      rw [hsd, show w ++ sgn ++ (d0 :: ds') ++ r = w ++ (sgn ++ ((d0 :: ds') ++ r)) from by
        simp [List.append_assoc]]
      apply dropWhile_space_all hw
      rcases hsgn with rfl | rfl | rfl
      · intro c hc
        simp at hc
        subst hc
        exact digit_not_space hd0
      · intro c hc
        simp at hc
        subst hc
        decide
      · intro c hc
        simp at hc
        subst hc
        decide
    rw [hdrop]
    have htake : (d0 :: (ds' ++ r)).takeWhile (fun c => c.isDigit) = d0 :: ds' := by
      have hta := takeWhile_all_append (p := fun c => c.isDigit) hdsd hr
      simpa [List.cons_append] using hta
    rcases hsgn with rfl | rfl | rfl
    · rw [show ([] ++ ((d0 :: ds') ++ r) : List Char) = d0 :: (ds' ++ r) from by simp]
      rw [show List.headD (d0 :: (ds' ++ r)) (Char.ofNat 0) = d0 from rfl]
      have hor : ¬(d0 = '-' ∨ d0 = '+') := by
        rintro (hc | hc)
        exacts [digit_ne_dash hd0 hc, digit_ne_plus hd0 hc]
      rw [if_neg (digit_ne_dash hd0), if_neg hor]
      have hne : ¬((d0 :: (ds' ++ r)).takeWhile (fun c => c.isDigit) = []) := by
        rw [htake]
        simp
      rw [if_neg hne, htake]
      rw [if_neg (show ¬(([] : List Char) = ['-']) from by simp)] at hn
      have hrg : ¬(1 * (digitsVal (d0 :: ds') : Int) < int64Min ∨
          int64Max < 1 * (digitsVal (d0 :: ds') : Int)) := by
        omega
      rw [if_neg hrg]
      simp only [Except.ok.injEq]
      omega
    · rw [show (['+'] ++ ((d0 :: ds') ++ r) : List Char) = '+' :: (d0 :: (ds' ++ r)) from by
        simp]
      rw [show List.headD ('+' :: (d0 :: (ds' ++ r))) (Char.ofNat 0) = '+' from rfl]
      rw [show List.tail ('+' :: (d0 :: (ds' ++ r))) = d0 :: (ds' ++ r) from rfl]
      have hplus : ('+' : Char) = '-' ∨ ('+' : Char) = '+' := Or.inr rfl
      rw [if_neg (show ¬('+' : Char) = '-' from by decide), if_pos hplus]
      have hne : ¬((d0 :: (ds' ++ r)).takeWhile (fun c => c.isDigit) = []) := by
        rw [htake]
        simp
      rw [if_neg hne, htake]
      rw [if_neg (show ¬((['+'] : List Char) = ['-']) from by simp)] at hn
      have hrg : ¬(1 * (digitsVal (d0 :: ds') : Int) < int64Min ∨
          int64Max < 1 * (digitsVal (d0 :: ds') : Int)) := by
        omega
      rw [if_neg hrg]
      simp only [Except.ok.injEq]
      omega
    · rw [show (['-'] ++ ((d0 :: ds') ++ r) : List Char) = '-' :: (d0 :: (ds' ++ r)) from by
        simp]
      rw [show List.headD ('-' :: (d0 :: (ds' ++ r))) (Char.ofNat 0) = '-' from rfl]
      rw [show List.tail ('-' :: (d0 :: (ds' ++ r))) = d0 :: (ds' ++ r) from rfl]
      have hminus : ('-' : Char) = '-' ∨ ('-' : Char) = '+' := Or.inl rfl
      rw [if_pos (show ('-' : Char) = '-' from rfl), if_pos hminus]
      have hne : ¬((d0 :: (ds' ++ r)).takeWhile (fun c => c.isDigit) = []) := by
        rw [htake]
        simp
      rw [if_neg hne, htake]
      rw [if_pos (show ((['-'] : List Char) = ['-']) from rfl)] at hn
      have hrg : ¬(-1 * (digitsVal (d0 :: ds') : Int) < int64Min ∨
          int64Max < -1 * (digitsVal (d0 :: ds') : Int)) := by
        omega
      rw [if_neg hrg]
      simp only [Except.ok.injEq]
      omega


lemma intSet_eq (k : Int) (s : String) :
    (Value.int k).Set s = (match stoll s with
      | Except.ok n => Except.ok (Value.int n)
      | Except.error NumErr.invalidArgument => Except.error "not an integer"
      | Except.error NumErr.outOfRange => Except.error "out of range for int64_t") := rfl

lemma int64Min_eq : int64Min = -9223372036854775808 := by decide

lemma int64Max_eq : int64Max = 9223372036854775807 := by decide

lemma map_resetFlag_updateFirst (p : Flag → Bool) (v : Value) (l : List Flag) :
    (updateFirst p (fun g => { g with value := v, set := true }) l).map resetFlag
      = l.map resetFlag := by
  induction l with
  | nil => rfl
  | cons x xs ih =>
    by_cases hpx : p x = true
    · simp [updateFirst, hpx, resetFlag]
    · simp [updateFirst, hpx, ih]

lemma map_resetFlag_updateLast (p : Flag → Bool) (v : Value) (l : List Flag) :
    (updateLast p (fun g => { g with value := v, set := true }) l).map resetFlag
      = l.map resetFlag := by
  unfold updateLast
  rw [List.map_reverse, map_resetFlag_updateFirst, List.map_reverse, List.reverse_reverse]

lemma assignLong_reg {fs : FlagSet} {noMore : Bool} {fn v : String} {c : Bool}
    {fs' : FlagSet} {noMore' c' : Bool}
    (h : assignLong fs noMore fn v c = StepRes.next fs' noMore' c') :
    fs'.name = fs.name ∧ fs'.desc = fs.desc ∧
      fs'.flags.map resetFlag = fs.flags.map resetFlag := by
  unfold assignLong at h
  split at h
  · cases h
  · split at h
    · cases h
    · cases h
      exact ⟨rfl, rfl, map_resetFlag_updateLast _ _ _⟩

lemma shortAssign_reg {fs : FlagSet} {noMore : Bool} {f : Flag} {fc : Char} {v : String}
    {c : Bool} {fs' : FlagSet} {noMore' c' : Bool}
    (h : shortAssign fs noMore f fc v c = StepRes.next fs' noMore' c') :
    fs'.name = fs.name ∧ fs'.desc = fs.desc ∧
      fs'.flags.map resetFlag = fs.flags.map resetFlag := by
  unfold shortAssign at h
  split at h
  · cases h
  · cases h
    exact ⟨rfl, rfl, map_resetFlag_updateLast _ _ _⟩

lemma longNoEq_reg {fs : FlagSet} {noMore : Bool} {fn : String} {rest : List String}
    {fs' : FlagSet} {noMore' c' : Bool}
    (h : longNoEq fs noMore fn rest = StepRes.next fs' noMore' c') :
    fs'.name = fs.name ∧ fs'.desc = fs.desc ∧
      fs'.flags.map resetFlag = fs.flags.map resetFlag := by
  unfold longNoEq at h
  split at h
  · split at h
    · exact assignLong_reg h
    · split at h
      · split at h
        · exact assignLong_reg h
        · cases h
      · cases h
  · exact assignLong_reg h

lemma longStep_reg {fs : FlagSet} {noMore : Bool} {arg : String} {rest : List String}
    {fs' : FlagSet} {noMore' c' : Bool}
    (h : longStep fs noMore arg rest = StepRes.next fs' noMore' c') :
    fs'.name = fs.name ∧ fs'.desc = fs.desc ∧
      fs'.flags.map resetFlag = fs.flags.map resetFlag := by
  unfold longStep at h
  split at h
  · exact assignLong_reg h
  · exact longNoEq_reg h

lemma shortWith_reg {fs : FlagSet} {noMore : Bool} {fc : Char} {arg : String}
    {rest : List String} {fs' : FlagSet} {noMore' c' : Bool}
    (h : shortWith fs noMore fc arg rest = StepRes.next fs' noMore' c') :
    fs'.name = fs.name ∧ fs'.desc = fs.desc ∧
      fs'.flags.map resetFlag = fs.flags.map resetFlag := by
  unfold shortWith at h
  split at h
  · cases h
  · split at h
    · exact shortAssign_reg h
    · split at h
      · exact shortAssign_reg h
      · split at h
        · exact shortAssign_reg h
        · cases h

lemma parseStep_reg {fs : FlagSet} {noMore : Bool} {arg : String} {rest : List String}
    {fs' : FlagSet} {noMore' c' : Bool}
    (h : parseStep fs noMore arg rest = StepRes.next fs' noMore' c') :
    fs'.name = fs.name ∧ fs'.desc = fs.desc ∧
      fs'.flags.map resetFlag = fs.flags.map resetFlag := by
  unfold parseStep at h
  split at h
  · cases h
  · split at h
    · cases h
      exact ⟨rfl, rfl, rfl⟩
    · split at h
      · cases h
        exact ⟨rfl, rfl, rfl⟩
      · split at h
        · cases h
          exact ⟨rfl, rfl, rfl⟩
        · split at h
          · exact longStep_reg h
          · split at h
            · exact shortWith_reg (h := by unfold shortStep at h; exact h)
            · cases h
              exact ⟨rfl, rfl, rfl⟩

lemma parseLoop_reg (fs : FlagSet) (noMore : Bool) (args : List String) :
    (parseLoop fs noMore args).2.name = fs.name ∧
    (parseLoop fs noMore args).2.desc = fs.desc ∧
    (parseLoop fs noMore args).2.flags.map resetFlag = fs.flags.map resetFlag := by
  induction fs, noMore, args using parseLoop.induct with
  | case1 fs noMore => exact ⟨rfl, rfl, rfl⟩
  | case2 fs noMore arg rest r hstep =>
    simp only [parseLoop, hstep]
    exact ⟨trivial, trivial, trivial⟩
  | case3 fs noMore arg rest fs' noMore' hstep ih =>
    simp only [parseLoop, hstep]
    have hreg := parseStep_reg hstep
    exact ⟨ih.1.trans hreg.1, ih.2.1.trans hreg.2.1, ih.2.2.trans hreg.2.2⟩
  | case4 fs noMore arg fs' noMore' hstep =>
    simp only [parseLoop, hstep]
    exact parseStep_reg hstep
  | case5 fs noMore arg fs' noMore' next rest hstep ih =>
    simp only [parseLoop, hstep]
    have hreg := parseStep_reg hstep
    exact ⟨ih.1.trans hreg.1, ih.2.1.trans hreg.2.1, ih.2.2.trans hreg.2.2⟩

lemma parseLoop_noMore (rest : List String) : ∀ fs : FlagSet,
    (∀ tk ∈ rest, ¬(tk = "--help" ∨ tk = "-h" ∨ tk = "-help")) →
    parseLoop fs true rest =
      ({ kind := ParseErrorKind.None, flag := "", message := "" },
       { fs with positional := fs.positional ++ rest }) := by
  induction rest with
  | nil =>
    intro fs _
    simp [parseLoop]
  | cons tk ts ih =>
    intro fs h
    have hstep : parseStep fs true tk ts =
        StepRes.next { fs with positional := fs.positional ++ [tk] } true false := by
      unfold parseStep
      rw [if_neg (h tk (by simp)), if_pos rfl]
    simp only [parseLoop, hstep]
    rw [ih _ (fun tk2 ht2 => h tk2 (by simp [ht2]))]
    simp

/-- C1 counterexample: with an int flag `port` registered, parsing
    `--port=1 --help` returns `HelpRequested`, yet `IsSet "port"` is true
    afterwards — the claim that no flag is reported set is false for flags
    processed before the help token. -/

theorem c1_counterexample :
    (fsDemo.Parse ["--port=1", "--help"]).1.kind = ParseErrorKind.HelpRequested ∧
    (fsDemo.Parse ["--port=1", "--help"]).2.IsSet "port" = true := by
  decide

/-- C1 (amended): reaching one of the help tokens (`--help`, `-h`,
    `-help`) in any scanner state halts the parse immediately with
    `HelpRequested` and returns the state accumulated so far unchanged — in
    particular, flags already assigned by earlier tokens remain set. -/

theorem c1_amended_help_halts_immediately (fs : FlagSet) (noMore : Bool) (t : String) (rest : List String)
    (h : t = "--help" ∨ t = "-h" ∨ t = "-help") :
    parseLoop fs noMore (t :: rest) =
      ({ kind := ParseErrorKind.HelpRequested, flag := "", message := "" }, fs) := by
  have hs : parseStep fs noMore t rest =
      StepRes.halt { kind := ParseErrorKind.HelpRequested, flag := "", message := "" } := by
    unfold parseStep
    rw [if_pos h]
  simp only [parseLoop, hs]

/-- C1 witness: the amended theorem applied at a concrete input. -/

theorem c1_amended_help_halts_immediately_witness :
    ("--help" = "--help" ∨ "--help" = "-h" ∨ "--help" = "-help") ∧
    parseLoop fsDemo false ["--help"] =
      ({ kind := ParseErrorKind.HelpRequested, flag := "", message := "" }, fsDemo) :=
  ⟨Or.inl rfl, c1_amended_help_halts_immediately fsDemo false "--help" [] (Or.inl rfl)⟩

/-- C2 counterexample: `Get<bool>` on the int-kinded flag `port` throws
    `std::bad_cast` (modelled `.error ()`); it does not return the zero
    value `false`, so the claim's kind-mismatch case is false. -/

theorem c2_counterexample :
    Get TypeTag.bool fsDemo "port" = Except.error () ∧
    Get TypeTag.bool fsDemo "port" ≠ Except.ok (zeroValue TypeTag.bool) := by
  decide

/-- C2 (amended): `Get<T>` returns the flag's current value when the name
    is registered with kind `T`, returns `T`'s zero value when the name is
    absent, and throws `std::bad_cast` (modelled `.error ()`) when the
    stored kind differs from `T`. -/

theorem c2_amended_typed_get (t : TypeTag) (fs : FlagSet) (n : String) :
    (fs.Lookup n = none → Get t fs n = Except.ok (zeroValue t)) ∧
    (∀ f, fs.Lookup n = some f → f.value.tag = t → Get t fs n = Except.ok f.value) ∧
    (∀ f, fs.Lookup n = some f → f.value.tag ≠ t → Get t fs n = Except.error ()) := by
  refine ⟨fun h => ?_, fun f hf ht => ?_, fun f hf ht => ?_⟩
  · simp [Get, h]
  · simp [Get, hf, Flag.As, ht]
  · simp [Get, hf, Flag.As, ht]

/-- C2 witness: the amended theorem applied at a concrete absent name. -/

theorem c2_amended_typed_get_witness :
    fsDemo.Lookup "nope" = none ∧
    Get TypeTag.int fsDemo "nope" = Except.ok (zeroValue TypeTag.int) :=
  ⟨by decide, (c2_amended_typed_get TypeTag.int fsDemo "nope").1 (by decide)⟩

/-- C3: a long token `--name` (no `=`) for a registered non-boolean flag
    whose next token starts with `-` is not given that token as value:
    `Parse` halts with `MissingValue` naming the flag; a short token `-c`
    for a registered non-boolean flag consumes the following token as its
    value even when it starts with `-`. -/

theorem c3_long_guard_short_no_guard (fs : FlagSet) (name : String) (f : Flag) (next1 : String)
    (rest1 : List String) (c : Char) (g : Flag) (v : Value) (next2 : String)
    (rest2 : List String)
    (hL : fs.Lookup name = some f) (hfb : f.value.isBool = false)
    (hh : name ≠ "help") (h0 : name ≠ "") (hE : '=' ∉ name.data)
    (hn1 : strHead next1 = '-')
    (hS : fs.lookupShort c = some g) (hgb : g.value.isBool = false)
    (hch : c ≠ 'h') (hcd : c ≠ '-')
    (hset : g.value.Set next2 = Except.ok v) :
    parseLoop fs false (("--" ++ name) :: next1 :: rest1) =
      ({ kind := ParseErrorKind.MissingValue, flag := name,
         message := "flag '" ++ name ++ "' needs a value" }, fs) ∧
    parseLoop fs false (String.mk ['-', c] :: next2 :: rest2) =
      parseLoop { fs with flags := (updateLast
          (fun g' => decide (g'.short_name = c ∧ c ≠ Char.ofNat 0))
          (fun g' => { g' with value := v, set := true }) fs.flags) } false rest2 := by
  have hmk : String.mk (("--" ++ name).data.drop 2) = name := by
    apply String.ext
    rw [data_long]
    rfl
  constructor
  · have hstep : parseStep fs false ("--" ++ name) (next1 :: rest1) =
        StepRes.halt { kind := ParseErrorKind.MissingValue, flag := name,
                       message := "flag '" ++ name ++ "' needs a value" } := by
      rw [parseStep_long fs name (next1 :: rest1) hh h0]
      unfold longStep
      rw [if_neg (by rw [data_long]; simp [hE]), hmk]
      unfold longNoEq
      simp only [hL, hfb]
      rw [if_neg (by simp)]
      rw [if_neg (by simp [hn1])]
    simp only [parseLoop, hstep]
  · have hstep : parseStep fs false (String.mk ['-', c]) (next2 :: rest2) =
        StepRes.next { fs with flags := (updateLast
          (fun g' => decide (g'.short_name = c ∧ c ≠ Char.ofNat 0))
          (fun g' => { g' with value := v, set := true }) fs.flags) } false true := by
      rw [parseStep_short fs c (next2 :: rest2) hch hcd]
      unfold shortWith
      simp only [hS, hgb]
      rw [if_neg (by intro h2; simp [String.length] at h2)]
      rw [if_neg (by simp)]
      unfold shortAssign
      simp only [hset]
    simp only [parseLoop, hstep]

/-- C3 witness: both conclusions at concrete inputs `--port -x` and
    `-p -9090` over the demo flag set. -/

theorem c3_long_guard_short_no_guard_witness :
    ((Value.int 8080).Set "-9090" = Except.ok (Value.int (-9090))) ∧
    (parseLoop fsDemo false (("--" ++ "port") :: "-x" :: []) =
      ({ kind := ParseErrorKind.MissingValue, flag := "port",
         message := "flag '" ++ "port" ++ "' needs a value" }, fsDemo) ∧
    parseLoop fsDemo false (String.mk ['-', 'p'] :: "-9090" :: []) =
      parseLoop { fsDemo with flags := (updateLast
          (fun g' => decide (g'.short_name = 'p' ∧ 'p' ≠ Char.ofNat 0))
          (fun g' => { g' with value := Value.int (-9090), set := true }) fsDemo.flags) }
        false []) :=
  ⟨by decide,
    c3_long_guard_short_no_guard fsDemo "port"
      ⟨"port", 'p', "port to listen on", Value.int 8080, Value.int 8080, false⟩ "-x" [] 'p'
      ⟨"port", 'p', "port to listen on", Value.int 8080, Value.int 8080, false⟩
      (Value.int (-9090)) "-9090" []
      (by decide) (by decide) (by decide) (by decide) (by decide) (by decide)
      (by decide) (by decide) (by decide) (by decide) (by decide)⟩

/-- C4: for the int flag `port` with alias `p` and any non-empty digit
    string (in 64-bit range), the four spellings `--port=N`, `--port N`,
    `-pN` and `-p N` produce identical parser outcomes: same final state,
    success, `IsSet "port"`, and the same stored integer value. -/

theorem c4_four_spellings_agree (ds : List Char) (h1 : ds ≠ []) (h2 : ∀ c ∈ ds, c.isDigit = true)
    (h3 : (digitsVal ds : Int) ≤ int64Max) :
    fsDemo.Parse [String.mk ("--port=".data ++ ds)]
      = fsDemo.Parse ["--port", String.mk ds] ∧
    fsDemo.Parse [String.mk ("--port=".data ++ ds)]
      = fsDemo.Parse [String.mk ("-p".data ++ ds)] ∧
    fsDemo.Parse [String.mk ("--port=".data ++ ds)]
      = fsDemo.Parse ["-p", String.mk ds] ∧
    (fsDemo.Parse [String.mk ("--port=".data ++ ds)]).1.kind = ParseErrorKind.None ∧
    (fsDemo.Parse [String.mk ("--port=".data ++ ds)]).2.IsSet "port" = true ∧
    Get TypeTag.int (fsDemo.Parse [String.mk ("--port=".data ++ ds)]).2 "port"
      = Except.ok (Value.int (digitsVal ds)) := by
  obtain ⟨d, t, rfl⟩ : ∃ d t, ds = d :: t := by
    cases ds with
    | nil => exact absurd rfl h1
    | cons a l => exact ⟨a, l, rfl⟩
  have hd0 : d.isDigit = true := h2 d (by simp)
  have hsetok : (Value.int 8080).Set (String.mk (d :: t))
      = Except.ok (Value.int (digitsVal (d :: t))) := by
    rw [intSet_eq]
    rw [show stoll (String.mk (d :: t)) = Except.ok ((digitsVal (d :: t) : Int)) from
      (stoll_ok_iff _ _).mpr ⟨[], [], d :: t, [], by simp, by simp, Or.inl rfl, h1, h2,
        by simp, by simp, by
          have h0 : (0 : Int) ≤ (digitsVal (d :: t) : Int) := Int.ofNat_nonneg _
          rw [int64Min_eq]
          omega, h3⟩]
  have hParse : ∀ args, fsDemo.Parse args = parseLoop fsDemo false args := by
    intro args
    unfold FlagSet.Parse
    have h0 : { fsDemo with positional := [], flags := fsDemo.flags.map resetFlag } = fsDemo := by decide
    rw [h0]
  let fsA : FlagSet :=
    { name := "full_demo", desc := "A full demo for FlagSet",
      flags := [⟨"help", 'h', "show this help message", Value.bool false, Value.bool false,
                  false⟩,
                ⟨"port", 'p', "port to listen on", Value.int (digitsVal (d :: t)),
                  Value.int 8080, true⟩,
                ⟨"debug", 'd', "enable debug logging", Value.bool false, Value.bool false,
                  false⟩,
                ⟨"ratio", 'r', "ratio for calculation", Value.float (DoubleVal.finite 1),
                  Value.float (DoubleVal.finite 1), false⟩,
                ⟨"mode", 'm', "running mode", Value.str "fast", Value.str "fast", false⟩],
      positional := [] }
  have hassign : ∀ cons : Bool, assignLong fsDemo false "port" (String.mk (d :: t)) cons
      = StepRes.next fsA false cons := by
    intro cons
    rw [show assignLong fsDemo false "port" (String.mk (d :: t)) cons =
        (match (Value.int 8080).Set (String.mk (d :: t)) with
         | Except.error e => StepRes.halt { kind := ParseErrorKind.InvalidValue, flag := "port", message := "invalid value for flag '" ++ "port" ++ "': " ++ e }
         | Except.ok v => StepRes.next { fsDemo with flags := (updateLast (fun g => decide (g.name = "port")) (fun g => { g with value := v, set := true }) fsDemo.flags) } false cons)
      from rfl]
    rw [hsetok]
    rfl
  have hshort : ∀ cons : Bool, shortAssign fsDemo false
      ⟨"port", 'p', "port to listen on", Value.int 8080, Value.int 8080, false⟩ 'p'
      (String.mk (d :: t)) cons = StepRes.next fsA false cons := by
    intro cons
    rw [show shortAssign fsDemo false
        ⟨"port", 'p', "port to listen on", Value.int 8080, Value.int 8080, false⟩ 'p'
        (String.mk (d :: t)) cons =
        (match (Value.int 8080).Set (String.mk (d :: t)) with
         | Except.error e => StepRes.halt { kind := ParseErrorKind.InvalidValue, flag := "port", message := "invalid value for flag '-" ++ "p" ++ "': " ++ e }
         | Except.ok v => StepRes.next { fsDemo with flags := (updateLast (fun g => decide (g.short_name = 'p' ∧ 'p' ≠ Char.ofNat 0)) (fun g => { g with value := v, set := true }) fsDemo.flags) } false cons)
      from rfl]
    rw [hsetok]
    rfl
  have hA : parseLoop fsDemo false [String.mk ("--port=".data ++ (d :: t))]
      = ({ kind := ParseErrorKind.None, flag := "", message := "" }, fsA) := by
    simp only [parseLoop]
    rw [show parseStep fsDemo false (String.mk ("--port=".data ++ (d :: t))) []
        = assignLong fsDemo false "port" (String.mk (d :: t)) false from rfl]
    rw [hassign false]
  have hB : parseLoop fsDemo false ["--port", String.mk (d :: t)]
      = ({ kind := ParseErrorKind.None, flag := "", message := "" }, fsA) := by
    simp only [parseLoop]
    rw [show parseStep fsDemo false "--port" [String.mk (d :: t)]
        = (if strHead (String.mk (d :: t)) ≠ '-'
           then assignLong fsDemo false "port" (String.mk (d :: t)) true
           else StepRes.halt { kind := ParseErrorKind.MissingValue, flag := "port", message := "flag '" ++ "port" ++ "' needs a value" }) from rfl]
    rw [if_pos (show strHead (String.mk (d :: t)) ≠ '-' from digit_ne_dash hd0)]
    rw [hassign true]
  have hlen3 : (String.mk ("-p".data ++ (d :: t))).length = t.length + 1 + 1 + 1 := rfl
  have hC : parseLoop fsDemo false [String.mk ("-p".data ++ (d :: t))]
      = ({ kind := ParseErrorKind.None, flag := "", message := "" }, fsA) := by
    simp only [parseLoop]
    rw [show parseStep fsDemo false (String.mk ("-p".data ++ (d :: t))) []
        = (if 2 < (String.mk ("-p".data ++ (d :: t))).length ∧
              (String.mk ("-p".data ++ (d :: t))).data.get? 1 = some '-'
           then longStep fsDemo false (String.mk ("-p".data ++ (d :: t))) []
           else if 1 < (String.mk ("-p".data ++ (d :: t))).length ∧
              strHead (String.mk ("-p".data ++ (d :: t))) = '-' ∧
              (String.mk ("-p".data ++ (d :: t))).data.get? 1 ≠ some '-'
           then shortStep fsDemo false (String.mk ("-p".data ++ (d :: t))) []
           else StepRes.next fsDemo false false) from rfl]
    rw [if_neg (by
      rintro ⟨-, hg⟩
      rw [show (String.mk ("-p".data ++ (d :: t))).data.get? 1 = some 'p' from rfl] at hg
      exact absurd (Option.some.inj hg) (by decide))]
    rw [if_pos ⟨by rw [hlen3]; omega, rfl, by
      rw [show (String.mk ("-p".data ++ (d :: t))).data.get? 1 = some 'p' from rfl]
      intro hg
      exact absurd (Option.some.inj hg) (by decide)⟩]
    rw [show shortStep fsDemo false (String.mk ("-p".data ++ (d :: t))) []
        = (if 2 < (String.mk ("-p".data ++ (d :: t))).length
           then shortAssign fsDemo false
              ⟨"port", 'p', "port to listen on", Value.int 8080, Value.int 8080, false⟩ 'p'
              (String.mk (d :: t)) false
           else StepRes.halt { kind := ParseErrorKind.MissingValue, flag := "port", message := "flag '-" ++ String.mk ['p'] ++ "' needs a value" }) from by
        unfold shortStep shortWith
        rfl]
    rw [if_pos (by rw [hlen3]; omega)]
    rw [hshort false]
  have hD : parseLoop fsDemo false ["-p", String.mk (d :: t)]
      = ({ kind := ParseErrorKind.None, flag := "", message := "" }, fsA) := by
    simp only [parseLoop]
    rw [show parseStep fsDemo false "-p" [String.mk (d :: t)]
        = shortAssign fsDemo false
            ⟨"port", 'p', "port to listen on", Value.int 8080, Value.int 8080, false⟩ 'p'
            (String.mk (d :: t)) true from rfl]
    rw [hshort true]
  simp only [hParse]
  rw [hA, hB, hC, hD]
  refine ⟨rfl, rfl, rfl, rfl, rfl, rfl⟩

/-- C4 witness: the theorem applied at the digit string "9090". -/

theorem c4_four_spellings_agree_witness :
    (['9', '0', '9', '0'] ≠ ([] : List Char) ∧ (∀ c ∈ ['9', '0', '9', '0'], Char.isDigit c = true)) ∧
    (fsDemo.Parse [String.mk ("--port=".data ++ ['9', '0', '9', '0'])]
      = fsDemo.Parse ["--port", String.mk ['9', '0', '9', '0']] ∧
    fsDemo.Parse [String.mk ("--port=".data ++ ['9', '0', '9', '0'])]
      = fsDemo.Parse [String.mk ("-p".data ++ ['9', '0', '9', '0'])] ∧
    fsDemo.Parse [String.mk ("--port=".data ++ ['9', '0', '9', '0'])]
      = fsDemo.Parse ["-p", String.mk ['9', '0', '9', '0']] ∧
    (fsDemo.Parse [String.mk ("--port=".data ++ ['9', '0', '9', '0'])]).1.kind
      = ParseErrorKind.None ∧
    (fsDemo.Parse [String.mk ("--port=".data ++ ['9', '0', '9', '0'])]).2.IsSet "port" = true ∧
    Get TypeTag.int (fsDemo.Parse [String.mk ("--port=".data ++ ['9', '0', '9', '0'])]).2 "port"
      = Except.ok (Value.int (digitsVal ['9', '0', '9', '0']))) :=
  ⟨⟨by decide, by decide⟩, c4_four_spellings_agree ['9', '0', '9', '0'] (by decide) (by decide) (by decide)⟩

/-- C5: `Parse` resets all state before scanning — flag values return to
    clones of their defaults, set flags clear, positionals clear — so a
    second `Parse` on an already-parsed `FlagSet` gives exactly the result
    of parsing a freshly-registered identical `FlagSet`. -/

theorem c5_parse_resets_state (fs : FlagSet) (args1 args2 : List String) :
    ((fs.Parse args1).2).Parse args2 = fs.Parse args2 := by
  unfold FlagSet.Parse
  have hreg := parseLoop_reg
    { fs with positional := [], flags := fs.flags.map resetFlag } false args1
  have hidem : (fs.flags.map resetFlag).map resetFlag = fs.flags.map resetFlag := by
    simp [List.map_map, Function.comp, resetFlag]
  rw [hreg.1, hreg.2.1, hreg.2.2.trans hidem]

/-- C6 counterexample: after the `--` terminator the token `--help` is NOT
    appended to the positionals; the help check precedes the
    no-more-flags check, so `Parse ["--", "--help"]` returns
    `HelpRequested` with no positionals. -/

theorem c6_counterexample :
    (fsDemo.Parse ["--", "--help"]).1.kind = ParseErrorKind.HelpRequested ∧
    (fsDemo.Parse ["--", "--help"]).2.positional = [] := by
  decide

/-- C6 (amended): the literal `--` token seen in flag-scanning mode is
    consumed and not emitted; every subsequent token other than the help
    spellings (`--help`, `-h`, `-help`, which still halt the parse with
    `HelpRequested`) is appended verbatim, in order, to the positional
    list. -/

theorem c6_amended_terminator (fs : FlagSet) (rest : List String)
    (h : ∀ tk ∈ rest, ¬(tk = "--help" ∨ tk = "-h" ∨ tk = "-help")) :
    parseLoop fs false ("--" :: rest) =
      ({ kind := ParseErrorKind.None, flag := "", message := "" },
       { fs with positional := fs.positional ++ rest }) := by
  have hstep0 : parseStep fs false "--" rest = StepRes.next fs true false := rfl
  simp only [parseLoop, hstep0]
  exact parseLoop_noMore rest fs h

/-- C6 witness: the amended theorem applied to `-- --port 9090 -x`. -/

theorem c6_amended_terminator_witness :
    (∀ tk ∈ (["--port", "9090", "-x"] : List String),
        ¬(tk = "--help" ∨ tk = "-h" ∨ tk = "-help")) ∧
    parseLoop fsDemo false ("--" :: ["--port", "9090", "-x"]) =
      ({ kind := ParseErrorKind.None, flag := "", message := "" },
       { fsDemo with positional := fsDemo.positional ++ ["--port", "9090", "-x"] }) :=
  ⟨by decide, c6_amended_terminator fsDemo ["--port", "9090", "-x"] (by decide)⟩

/-- C7 counterexample: "123abc" is not a well-formed base-10 signed
    64-bit integer, yet the integer `Set` succeeds (storing 123), because
    `std::stoll` ignores trailing characters after the digit run. -/

theorem c7_counterexample :
    WellFormedInt64 "123abc" = false ∧
    (Value.int 0).Set "123abc" = Except.ok (Value.int 123) := by
  decide

/-- C7 (amended): the integer `Set` succeeds exactly when, after optional
    C whitespace and one optional sign, the text starts with a non-empty
    maximal digit run whose signed value fits the signed 64-bit range; it
    stores that value and ignores any trailing characters. -/

theorem c7_amended_int_set_characterization (k : Int) (s : String) (n : Int) :
    (Value.int k).Set s = Except.ok (Value.int n) ↔ IntTokenSpec s n := by
  rw [← stoll_ok_iff, intSet_eq]
  constructor
  · intro h
    cases hst : stoll s with
    | ok m =>
      simp only [hst] at h
      simp only [Except.ok.injEq, Value.int.injEq] at h
      rw [h]
    | error e =>
      cases e <;> simp only [hst] at h <;> simp at h
  · intro h
    rw [h]

/-- C8: a bare long token for a registered boolean flag, or a bare alias
    token, assigns `true` and consumes no following token: scanning
    continues with the rest of the argument list unchanged, so a following
    token is processed in its own right. -/

theorem c8_bare_bool_true (fs : FlagSet) (name : String) (f : Flag) (rest1 : List String)
    (c : Char) (g : Flag) (rest2 : List String)
    (hL : fs.Lookup name = some f) (hfb : f.value.isBool = true)
    (hh : name ≠ "help") (h0 : name ≠ "") (hE : '=' ∉ name.data)
    (hS : fs.lookupShort c = some g) (hgb : g.value.isBool = true)
    (hch : c ≠ 'h') (hcd : c ≠ '-') :
    parseLoop fs false (("--" ++ name) :: rest1) =
      parseLoop { fs with flags := (updateLast (fun g' => decide (g'.name = name))
          (fun g' => { g' with value := Value.bool true, set := true }) fs.flags) }
        false rest1 ∧
    parseLoop fs false (String.mk ['-', c] :: rest2) =
      parseLoop { fs with flags := (updateLast
          (fun g' => decide (g'.short_name = c ∧ c ≠ Char.ofNat 0))
          (fun g' => { g' with value := Value.bool true, set := true }) fs.flags) }
        false rest2 := by
  have hmk : String.mk (("--" ++ name).data.drop 2) = name := by
    apply String.ext
    rw [data_long]
    rfl
  constructor
  · have hstep : parseStep fs false ("--" ++ name) rest1 =
        StepRes.next { fs with flags := (updateLast (fun g' => decide (g'.name = name))
          (fun g' => { g' with value := Value.bool true, set := true }) fs.flags) }
          false false := by
      rw [parseStep_long fs name rest1 hh h0]
      unfold longStep
      rw [if_neg (by rw [data_long]; simp [hE]), hmk]
      unfold longNoEq
      simp only [hL, hfb, if_true]
      unfold assignLong
      simp only [hL]
      rw [set_true_of_isBool hfb]
    simp only [parseLoop, hstep]
  · have hstep : parseStep fs false (String.mk ['-', c]) rest2 =
        StepRes.next { fs with flags := (updateLast
          (fun g' => decide (g'.short_name = c ∧ c ≠ Char.ofNat 0))
          (fun g' => { g' with value := Value.bool true, set := true }) fs.flags) }
          false false := by
      rw [parseStep_short fs c rest2 hch hcd]
      unfold shortWith
      simp only [hS, hgb, if_true]
      rw [if_neg (by intro h2; simp [String.length] at h2)]
      unfold shortAssign
      rw [set_true_of_isBool hgb]
    simp only [parseLoop, hstep]

/-- C8 witness: both conclusions at `--debug foo` and `-d foo`. -/

theorem c8_bare_bool_true_witness :
    (fsDemo.Lookup "debug" = some ⟨"debug", 'd', "enable debug logging", Value.bool false, Value.bool false, false⟩) ∧
    (parseLoop fsDemo false (("--" ++ "debug") :: ["foo"]) =
      parseLoop { fsDemo with flags := (updateLast (fun g' => decide (g'.name = "debug"))
          (fun g' => { g' with value := Value.bool true, set := true }) fsDemo.flags) }
        false ["foo"] ∧
    parseLoop fsDemo false (String.mk ['-', 'd'] :: ["foo"]) =
      parseLoop { fsDemo with flags := (updateLast
          (fun g' => decide (g'.short_name = 'd' ∧ 'd' ≠ Char.ofNat 0))
          (fun g' => { g' with value := Value.bool true, set := true }) fsDemo.flags) }
        false ["foo"]) :=
  ⟨by decide,
    c8_bare_bool_true fsDemo "debug"
      ⟨"debug", 'd', "enable debug logging", Value.bool false, Value.bool false, false⟩ ["foo"] 'd'
      ⟨"debug", 'd', "enable debug logging", Value.bool false, Value.bool false, false⟩ ["foo"]
      (by decide) (by decide) (by decide) (by decide) (by decide) (by decide) (by decide)
      (by decide) (by decide)⟩

/-- C9: an unregistered long name yields `UnknownFlag` carrying the name
    stripped of `--` verbatim; a `--name=value` token whose value fails the
    flag's conversion yields `InvalidValue` naming the flag with a message
    embedding the `Value`'s own error sub-message. -/

theorem c9_unknown_and_invalid (fs : FlagSet) (nameA nameB v msg : String) (f : Flag)
    (restA restB : List String)
    (haN : fs.Lookup nameA = none) (haH : nameA ≠ "help") (haE : '=' ∉ nameA.data)
    (ha0 : nameA ≠ "")
    (hbL : fs.Lookup nameB = some f) (hbS : f.value.Set v = Except.error msg)
    (hbE : '=' ∉ nameB.data) :
    parseLoop fs false (("--" ++ nameA) :: restA) =
      ({ kind := ParseErrorKind.UnknownFlag, flag := nameA,
         message := "unknown flag: " ++ nameA }, fs) ∧
    parseLoop fs false (("--" ++ nameB ++ "=" ++ v) :: restB) =
      ({ kind := ParseErrorKind.InvalidValue, flag := nameB,
         message := "invalid value for flag '" ++ nameB ++ "': " ++ msg }, fs) := by
  constructor
  · have hmkA : String.mk (("--" ++ nameA).data.drop 2) = nameA := by
      apply String.ext
      rw [data_long]
      rfl
    have hstep : parseStep fs false ("--" ++ nameA) restA =
        StepRes.halt { kind := ParseErrorKind.UnknownFlag, flag := nameA,
                       message := "unknown flag: " ++ nameA } := by
      rw [parseStep_long fs nameA restA haH ha0]
      unfold longStep
      rw [if_neg (by rw [data_long]; simp [haE]), hmkA]
      unfold longNoEq
      rw [haN]
      unfold assignLong
      rw [haN]
    simp only [parseLoop, hstep]
  · have hdB : ("--" ++ nameB ++ "=" ++ v).data = '-' :: '-' :: (nameB.data ++ '=' :: v.data) :=
      data_longEq nameB v
    have hBhelp : ¬("--" ++ nameB ++ "=" ++ v = "--help" ∨ "--" ++ nameB ++ "=" ++ v = "-h" ∨
        "--" ++ nameB ++ "=" ++ v = "-help") := by
      rintro (he | he | he) <;> rw [String.ext_iff, hdB] at he
      · have hm : '=' ∈ ("--help" : String).data := by
          rw [← he]
          simp
        simp at hm
      · simp at he
      · simp at he
    have hBterm : ¬("--" ++ nameB ++ "=" ++ v = "--") := by
      intro he
      rw [String.ext_iff, hdB] at he
      have hm : '=' ∈ ("--" : String).data := by
        rw [← he]
        simp
      simp at hm
    have htake : List.takeWhile (fun c => decide (c ≠ '=')) nameB.data = nameB.data :=
      List.takeWhile_eq_self_iff.mpr
        (fun x hx => decide_eq_true (fun hxe => hbE (hxe ▸ hx)))
    have hback : List.dropWhile (fun c => decide (c ≠ '=')) nameB.data = [] :=
      List.dropWhile_eq_nil_iff.mpr
        (fun x hx => decide_eq_true (fun hxe => hbE (hxe ▸ hx)))
    have hfn : String.mk ((("--" ++ nameB ++ "=" ++ v).data.drop 2).takeWhile
        (fun c => c ≠ '=')) = nameB := by
      apply String.ext
      rw [hdB]
      rw [show ('-' :: '-' :: (nameB.data ++ '=' :: v.data)).drop 2
        = nameB.data ++ '=' :: v.data from rfl]
      rw [show (String.mk (List.takeWhile (fun c => decide (c ≠ '='))
        (nameB.data ++ '=' :: v.data))).data
        = List.takeWhile (fun c => decide (c ≠ '=')) (nameB.data ++ '=' :: v.data) from rfl]
      rw [List.takeWhile_append, htake]
      simp [List.takeWhile_cons]
    have hval : String.mk ((("--" ++ nameB ++ "=" ++ v).data.dropWhile
        (fun c => c ≠ '=')).drop 1) = v := by
      apply String.ext
      rw [hdB]
      rw [show ('-' :: '-' :: (nameB.data ++ '=' :: v.data)).dropWhile
          (fun c => decide (c ≠ '='))
        = (nameB.data ++ '=' :: v.data).dropWhile (fun c => decide (c ≠ '=')) from by
          rw [List.dropWhile_cons, List.dropWhile_cons]
          simp]
      rw [List.dropWhile_append, hback]
      simp [List.dropWhile_cons]
    have hstep : parseStep fs false ("--" ++ nameB ++ "=" ++ v) restB =
        StepRes.halt { kind := ParseErrorKind.InvalidValue, flag := nameB,
                       message := "invalid value for flag '" ++ nameB ++ "': " ++ msg } := by
      unfold parseStep
      rw [if_neg hBhelp, if_neg (by simp), if_neg hBterm]
      rw [if_neg (by rw [strHead, hdB]; simp)]
      rw [if_pos ⟨by rw [show ("--" ++ nameB ++ "=" ++ v).length
            = ("--" ++ nameB ++ "=" ++ v).data.length from rfl, hdB]; simp,
          by rw [hdB]; rfl⟩]
      unfold longStep
      rw [if_pos (by rw [hdB]; simp)]
      rw [hfn, hval]
      unfold assignLong
      simp only [hbL]
      rw [hbS]
    simp only [parseLoop, hstep]

/-- C9 witness: `--bogus` and `--ratio=notanumber` over the demo set. -/

theorem c9_unknown_and_invalid_witness :
    (fsDemo.Lookup "bogus" = none ∧
      (Value.float (DoubleVal.finite 1)).Set "notanumber" = Except.error "not a float") ∧
    (parseLoop fsDemo false (("--" ++ "bogus") :: []) =
      ({ kind := ParseErrorKind.UnknownFlag, flag := "bogus",
         message := "unknown flag: " ++ "bogus" }, fsDemo) ∧
    parseLoop fsDemo false (("--" ++ "ratio" ++ "=" ++ "notanumber") :: []) =
      ({ kind := ParseErrorKind.InvalidValue, flag := "ratio",
         message := "invalid value for flag '" ++ "ratio" ++ "': " ++ "not a float" }, fsDemo)) :=
  ⟨⟨by decide, by decide⟩,
    c9_unknown_and_invalid fsDemo "bogus" "ratio" "notanumber" "not a float"
      ⟨"ratio", 'r', "ratio for calculation", Value.float (DoubleVal.finite 1),
        Value.float (DoubleVal.finite 1), false⟩ [] []
      (by decide) (by decide) (by decide) (by decide) (by decide) (by decide) (by decide)⟩

/-- C10: a lone `-` token outside no-more-flags mode is silently skipped:
    it is not appended to the positionals, not treated as a flag, and not
    an error — the scan continues exactly as if the token were absent. -/

theorem c10_lone_dash_skipped (fs : FlagSet) (rest : List String) :
    parseLoop fs false ("-" :: rest) = parseLoop fs false rest := rfl

end cli
